import Mathlib

set_option maxRecDepth 40000
set_option maxHeartbeats 1000000

/- Shallow embedding of scripts/anonymize_pdf.py.

   Python strings are modelled as lists of Unicode code points (`List Nat`);
   PDF content-stream bytes as lists of `Nat` below 256.  Decoding bytes with
   the latin-1 codec maps byte `b` to code point `b`, so it is the identity
   on the `Nat` representation; re-encoding with `errors='ignore'` drops the
   code points that are 256 or larger. -/

/-- Code points of a string literal (helper for concrete test corpora). -/
def strL (s : String) : List Nat := s.toList.map Char.toNat

/-- Python regex class `[A-Z]`. -/
def isUpper (c : Nat) : Bool := decide (65 ≤ c ∧ c ≤ 90)

/-- Python regex class `[a-z]`. -/
def isLower (c : Nat) : Bool := decide (97 ≤ c ∧ c ≤ 122)

/-- Python regex class `\d` restricted to ASCII digits (the corpus is latin-1). -/
def isDigit (c : Nat) : Bool := decide (48 ≤ c ∧ c ≤ 57)

/-- Python regex class `\s` on the latin-1 code-point range:
    tab, nl, vtab, ff, cr, the 0x1c-0x1f separators, space, NEL, NBSP. -/
def isSpace (c : Nat) : Bool :=
  decide ((9 ≤ c ∧ c ≤ 13) ∨ (28 ≤ c ∧ c ≤ 32) ∨ c = 133 ∨ c = 160)

/-- Python regex class `\w` (word character) on the latin-1 code-point range:
    ASCII alphanumerics, underscore, and the latin-1 letters and numeric signs
    (ª, ², ³, µ, ¹, º, ¼, ½, ¾, À-Ö, Ø-ö, ø-ÿ). -/
def isWordChar (c : Nat) : Bool :=
  isDigit c || isUpper c || isLower c || decide (c = 95 ∨ c = 170 ∨ c = 178 ∨
    c = 179 ∨ c = 181 ∨ c = 185 ∨ c = 186 ∨ c = 188 ∨ c = 189 ∨ c = 190 ∨
    (192 ≤ c ∧ c ≤ 214) ∨ (216 ≤ c ∧ c ≤ 246) ∨ (248 ≤ c ∧ c ≤ 255))

/-- Python `str.lower()` on the letters the detector can produce (the regex
    groups `[A-Z]`/`[a-z]` only yield ASCII letters, and the latin-1 capital
    letters À-Þ lower to the code point 32 higher, as in CPython). -/
def lowerStr (s : List Nat) : List Nat :=
  s.map (fun c => if (65 ≤ c ∧ c ≤ 90) ∨ (192 ≤ c ∧ c ≤ 222 ∧ c ≠ 215) then c + 32 else c)

/-- Embedding of `encode_bromcom`: per character `(code - 29) % 256`, with
    Python's always-nonnegative `%` (−29 is congruent to 227 mod 256). -/
def encode_bromcom (text : List Nat) : List Nat :=
  text.map (fun c => (c + 227) % 256)

/-- Embedding of `decode_bromcom`: per character `(code + 29) % 256`. -/
def decode_bromcom (text : List Nat) : List Nat :=
  text.map (fun c => (c + 29) % 256)

/-- Uppercase hexadecimal digit character for a value below 16. -/
def hexDigitChar (n : Nat) : Nat := if n < 10 then 48 + n else 55 + n

/-- Uppercase hexadecimal digits of `n`, most significant first (fuelled). -/
def hexDigitsCore : Nat → Nat → List Nat
  | 0, _ => []
  | fuel + 1, n =>
    if n < 16 then [hexDigitChar n] else
      hexDigitsCore fuel (n / 16) ++ [hexDigitChar (n % 16)]

/-- Python format `f'\x7bord(c):04X\x7d'`: hexadecimal, zero-padded to width 4. -/
def fmt04X (n : Nat) : List Nat :=
  let ds := hexDigitsCore (n + 1) n
  List.replicate (4 - ds.length) 48 ++ ds

/-- Embedding of `text_to_pdf_hex`: each character as 4 uppercase hex digits,
    concatenated and wrapped in angle brackets. -/
def text_to_pdf_hex (text : List Nat) : List Nat :=
  60 :: (text.map fmt04X).flatten ++ [62]

/-- Numeric value of a hexadecimal digit character (either case), as
    `int(-, 16)` assigns to it. -/
def hexVal (c : Nat) : Nat :=
  if 48 ≤ c ∧ c ≤ 57 then c - 48
  else if 65 ≤ c ∧ c ≤ 70 then c - 55
  else if 97 ≤ c ∧ c ≤ 102 then c - 87 else 0

/-- Embedding of the hex-literal decoding loop in `extract_text_from_pdf`:
    consecutive 4-digit groups are read (a trailing shorter group is skipped
    by the `i + 4 <= len(hex_str)` guard), and a group contributes a character
    only when its value `val` satisfies `0 < val < 256`. -/
def hexDecodeBody : List Nat → List Nat
  | a :: b :: c :: d :: rest =>
    if 0 < ((hexVal a * 16 + hexVal b) * 16 + hexVal c) * 16 + hexVal d ∧
        ((hexVal a * 16 + hexVal b) * 16 + hexVal c) * 16 + hexVal d < 256 then
      (((hexVal a * 16 + hexVal b) * 16 + hexVal c) * 16 + hexVal d) :: hexDecodeBody rest
    else hexDecodeBody rest
  | _ => []

-- Round-trip lemmas for the encoding transforms

lemma hexVal_hexDigitChar (n : Nat) (h : n < 16) : hexVal (hexDigitChar n) = n := by
  interval_cases n <;> decide

lemma hexDigitsCore_small (fuel n : Nat) (hf : 0 < fuel) (hn : n < 16) :
    hexDigitsCore fuel n = [hexDigitChar n] := by
  cases fuel with
  | zero => omega
  | succ f => simp only [hexDigitsCore]; rw [if_pos hn]

lemma fmt04X_small (c : Nat) (h : c < 256) :
    fmt04X c = [48, 48, hexDigitChar (c / 16), hexDigitChar (c % 16)] := by
  unfold fmt04X
  by_cases h16 : c < 16
  · rw [hexDigitsCore_small (c + 1) c (by omega) h16]
    have hd : c / 16 = 0 := by omega
    have hm : c % 16 = c := by omega
    have h0 : hexDigitChar 0 = 48 := by decide
    rw [hd, hm, h0]
    rfl
  · have h1 : hexDigitsCore (c + 1) c =
        hexDigitsCore c (c / 16) ++ [hexDigitChar (c % 16)] := by
      simp only [hexDigitsCore]; rw [if_neg h16]
    rw [h1, hexDigitsCore_small c (c / 16) (by omega) (by omega)]
    rfl

lemma hexDecodeBody_chunk (c : Nat) (h0 : 0 < c) (h : c < 256) (rest : List Nat) :
    hexDecodeBody (fmt04X c ++ rest) = c :: hexDecodeBody rest := by
  rw [fmt04X_small c h]
  have hv : ((hexVal 48 * 16 + hexVal 48) * 16 + hexVal (hexDigitChar (c / 16))) * 16 +
      hexVal (hexDigitChar (c % 16)) = c := by
    rw [hexVal_hexDigitChar _ (by omega), hexVal_hexDigitChar _ (by omega)]
    have h48 : hexVal 48 = 0 := by decide
    rw [h48]
    omega
  show hexDecodeBody (48 :: 48 :: hexDigitChar (c / 16) :: hexDigitChar (c % 16) :: rest)
      = c :: hexDecodeBody rest
  simp only [hexDecodeBody]
  rw [hv, if_pos ⟨h0, h⟩]

/-- C5: for every string whose character codes lie in 0-255,
    `decode_bromcom (encode_bromcom s) = s`: adding 29 modulo 256 exactly
    inverts subtracting 29 modulo 256, with no error path. -/
theorem C5_cipher_roundtrip (s : List Nat) (h : ∀ c ∈ s, c < 256) :
    decode_bromcom (encode_bromcom s) = s := by
  induction s with
  | nil => rfl
  | cons c cs ih =>
    have hc : c < 256 := h c (List.mem_cons_self c cs)
    have hcs : ∀ x ∈ cs, x < 256 := fun x hx => h x (List.mem_cons_of_mem c hx)
    simp only [encode_bromcom, decode_bromcom, List.map] at *
    rw [ih hcs]
    have : ((c + 227) % 256 + 29) % 256 = c := by omega
    rw [this]

/-- C5 witness: the round trip evaluated on a concrete byte string containing
    the extreme code points 0 and 255. -/
theorem C5_cipher_roundtrip_witness :
    (∀ c ∈ [0, 28, 65, 90, 255], c < 256) ∧
      decode_bromcom (encode_bromcom [0, 28, 65, 90, 255]) = [0, 28, 65, 90, 255] :=
  ⟨by decide, C5_cipher_roundtrip [0, 28, 65, 90, 255] (by decide)⟩

/-- C6: for every string whose character codes lie in [1,255], reading the
    body of `text_to_pdf_hex` back in consecutive 4-hex-digit groups -
    accepting a group only when its value `v` satisfies `0 < v < 256` -
    reproduces the string exactly. -/
theorem C6_hex_roundtrip (s : List Nat) (h : ∀ c ∈ s, 0 < c ∧ c < 256) :
    hexDecodeBody ((s.map fmt04X).flatten) = s ∧
      text_to_pdf_hex s = 60 :: ((s.map fmt04X).flatten ++ [62]) := by
  constructor
  · induction s with
    | nil => rfl
    | cons c cs ih =>
      have hc := h c (List.mem_cons_self c cs)
      have hcs : ∀ x ∈ cs, 0 < x ∧ x < 256 := fun x hx => h x (List.mem_cons_of_mem c hx)
      simp only [List.map_cons, List.flatten_cons]
      rw [hexDecodeBody_chunk c hc.1 hc.2, ih hcs]
  · rfl

/-- C6 witness: the hex round trip evaluated on a concrete string containing
    the extreme accepted code points 1 and 255. -/
theorem C6_hex_roundtrip_witness :
    (∀ c ∈ [1, 15, 77, 255], 0 < c ∧ c < 256) ∧
      hexDecodeBody (([1, 15, 77, 255].map fmt04X).flatten) = [1, 15, 77, 255] :=
  ⟨by decide, (C6_hex_roundtrip [1, 15, 77, 255] (by decide)).1⟩

-- The substitution engine (`anonymize_text_content`)

/-- Python `str.replace(old, new)` with nonempty `old`: leftmost,
    non-overlapping literal substring replacement (fuelled scan; the fuel
    `s.length` suffices because each step consumes at least one character). -/
def replaceCore (old new : List Nat) : Nat → List Nat → List Nat
  | 0, s => s
  | fuel + 1, s =>
    if old.isPrefixOf s then new ++ replaceCore old new fuel (s.drop old.length)
    else
      match s with
      | [] => []
      | c :: cs => c :: replaceCore old new fuel cs

/-- Python `str.replace(old, new)`, including the empty-`old` convention of
    inserting `new` around every character. -/
def replaceAll (s old new : List Nat) : List Nat :=
  if old.isEmpty then new ++ (s.map (fun c => c :: new)).flatten
  else replaceCore old new s.length s

/-- Embedding of `anonymize_text_content`: decode the content bytes with
    latin-1 (the identity on code points), apply for every mapping entry the
    seven literal replacements of the source in order, then re-encode with
    latin-1 and `errors='ignore'` (dropping code points of 256 or larger). -/
def anonymize_text_content (content : List Nat)
    (replacements : List (List Nat × List Nat)) : List Nat :=
  let final := replacements.foldl (fun text p =>
    let real_name := p.1
    let fake_name := p.2
    let t1 := replaceAll text real_name fake_name
    let encoded_real := encode_bromcom real_name
    let encoded_fake := encode_bromcom fake_name
    let t2 := replaceAll t1 encoded_real encoded_fake
    let t3 := replaceAll t2 (text_to_pdf_hex real_name) (text_to_pdf_hex fake_name)
    let t4 := replaceAll t3 (text_to_pdf_hex encoded_real) (text_to_pdf_hex encoded_fake)
    let real_ns := real_name.filter (fun c => decide (c ≠ 32))
    let fake_ns := fake_name.filter (fun c => decide (c ≠ 32))
    let t5 := replaceAll t4 real_ns fake_ns
    let t6 := replaceAll t5 (encode_bromcom real_ns) (encode_bromcom fake_ns)
    let t7 := replaceAll t6 (text_to_pdf_hex real_ns) (text_to_pdf_hex fake_ns)
    t7) content
  final.filter (fun c => decide (c < 256))

/-- Spec-worded pass list for one mapping entry, with the amendment of C3:
    plain, cipher, hex, hex-of-cipher, then plain, cipher and hex with all
    spaces stripped from search and replacement (seven passes). -/
def substitutionPasses (real fake : List Nat) : List (List Nat × List Nat) :=
  [(real, fake),
   (encode_bromcom real, encode_bromcom fake),
   (text_to_pdf_hex real, text_to_pdf_hex fake),
   (text_to_pdf_hex (encode_bromcom real), text_to_pdf_hex (encode_bromcom fake)),
   (real.filter (fun c => decide (c ≠ 32)), fake.filter (fun c => decide (c ≠ 32))),
   (encode_bromcom (real.filter (fun c => decide (c ≠ 32))),
    encode_bromcom (fake.filter (fun c => decide (c ≠ 32)))),
   (text_to_pdf_hex (real.filter (fun c => decide (c ≠ 32))),
    text_to_pdf_hex (fake.filter (fun c => decide (c ≠ 32))))]

/-- Sequential application of a pass list, each pass operating on the output
    of the previous one. -/
def applyPassList (text : List Nat) (ps : List (List Nat × List Nat)) : List Nat :=
  ps.foldl (fun t q => replaceAll t q.1 q.2) text

/-- Modelled from the claim's wording only (for comparison with the source's
    engine): the eight-pass engine that additionally repeats the
    hex-of-cipher pass with spaces stripped. -/
def anonymizeEightPassSpec (content : List Nat)
    (replacements : List (List Nat × List Nat)) : List Nat :=
  (replacements.foldl (fun t p =>
    applyPassList t (substitutionPasses p.1 p.2 ++
      [(text_to_pdf_hex (encode_bromcom (p.1.filter (fun c => decide (c ≠ 32)))),
        text_to_pdf_hex (encode_bromcom (p.2.filter (fun c => decide (c ≠ 32)))))]))
    content).filter (fun c => decide (c < 256))

/-- C3 counterexample: on a content stream holding exactly the hex-encoded
    cipher-encoded space-stripped original, the source engine changes
    nothing, while the eight-pass engine described by the claim rewrites it;
    hence the engine does not apply the eighth (space-stripped
    hex-of-cipher) pass. -/
theorem C3_counterexample :
    anonymize_text_content (text_to_pdf_hex (encode_bromcom (strL "AB")))
        [(strL "A B", strL "C D")]
      = text_to_pdf_hex (encode_bromcom (strL "AB")) ∧
    anonymizeEightPassSpec (text_to_pdf_hex (encode_bromcom (strL "AB")))
        [(strL "A B", strL "C D")]
      ≠ anonymize_text_content (text_to_pdf_hex (encode_bromcom (strL "AB")))
        [(strL "A B", strL "C D")] := by
  constructor
  · decide
  · decide

/-- C3 amended: for every mapping entry, the substitution engine applies
    seven literal substring replacements in a fixed order, each pass on the
    output of the previous: plain, cipher-encoded, hex-encoded,
    hex-of-cipher-encoded, and then the plain, cipher-encoded and
    hex-encoded passes repeated with all spaces stripped from both search
    and replacement (no space-stripped hex-of-cipher pass). -/
theorem C3_seven_passes (content : List Nat)
    (replacements : List (List Nat × List Nat)) :
    anonymize_text_content content replacements =
      (replacements.foldl (fun t p => applyPassList t (substitutionPasses p.1 p.2))
        content).filter (fun c => decide (c < 256)) := rfl

-- C10: the engine with an empty mapping is the identity on byte content

/-- C10: with an empty replacement mapping the substitution engine returns
    the content unchanged: the latin-1 decode followed by the latin-1
    re-encode is the identity on bytes below 256. -/
theorem C10_empty_mapping_identity (content : List Nat)
    (h : ∀ b ∈ content, b < 256) :
    anonymize_text_content content [] = content := by
  unfold anonymize_text_content
  simp only [List.foldl_nil]
  exact List.filter_eq_self.mpr (fun a ha => by simpa using h a ha)

/-- C10 witness: the empty-mapping engine evaluated on a concrete byte
    string containing the extreme byte values 0 and 255. -/
theorem C10_empty_mapping_identity_witness :
    (∀ b ∈ [0, 60, 65, 255], b < 256) ∧
      anonymize_text_content [0, 60, 65, 255] [] = [0, 60, 65, 255] :=
  ⟨by decide, C10_empty_mapping_identity [0, 60, 65, 255] (by decide)⟩

-- Fixture vocabularies (process-wide constants of the script)

/-- The `TEACHER_FIXTURES` phonetic-alphabet vocabulary. -/
def TEACHER_FIXTURES : List (List Nat) :=
  [strL "Alpha", strL "Bravo", strL "Charlie", strL "Delta", strL "Echo",
   strL "Foxtrot", strL "Golf", strL "Hotel", strL "India", strL "Juliet",
   strL "Kilo", strL "Lima", strL "Mike", strL "November", strL "Oscar",
   strL "Papa", strL "Quebec", strL "Romeo", strL "Sierra", strL "Tango",
   strL "Uniform", strL "Victor", strL "Whiskey", strL "X-ray", strL "Yankee",
   strL "Zulu"]

/-- The `FIRST_NAMES` vocabulary. -/
def FIRST_NAMES : List (List Nat) :=
  [strL "Test", strL "Sample", strL "Demo", strL "Mock", strL "Fixture",
   strL "Example", strL "Placeholder", strL "Specimen", strL "Model",
   strL "Instance", strL "Case", strL "Trial"]

/-- The `LAST_NAMES` vocabulary. -/
def LAST_NAMES : List (List Nat) :=
  [strL "Data", strL "User", strL "Person", strL "Student", strL "Subject",
   strL "Entity", strL "Record", strL "Entry", strL "Item", strL "Object",
   strL "Element", strL "Unit"]

/-- Decimal digits of `n`, most significant first (fuelled). -/
def decDigitsCore : Nat → Nat → List Nat
  | 0, _ => []
  | fuel + 1, n =>
    if n < 10 then [48 + n] else decDigitsCore fuel (n / 10) ++ [48 + n % 10]

/-- Python format `f'\x7bn:0wd\x7d'`: decimal, zero-padded to `width`. -/
def fmt0pad (width n : Nat) : List Nat :=
  let ds := decDigitsCore (n + 1) n
  List.replicate (width - ds.length) 48 ++ ds

/-- Python `str.split(None, 1)`: strip leading whitespace, take the first
    whitespace-delimited token, skip the separating whitespace run, and keep
    the remainder verbatim (dropped when it is empty). -/
def splitNone1 (s : List Nat) : List (List Nat) :=
  let s1 := s.dropWhile (fun c => isSpace c)
  if s1.isEmpty then []
  else
    let tok := s1.takeWhile (fun c => !isSpace c)
    let rest := ((s1.dropWhile (fun c => !isSpace c)).dropWhile (fun c => isSpace c))
    if rest.isEmpty then [tok] else [tok, rest]

-- The replacement generators

/-- The `for first in FIRST_NAMES: for last in LAST_NAMES:` search of
    `generate_replacement_name`: an exact-length unused candidate is taken,
    else a shorter candidate is padded with trailing spaces and taken when
    the padded form is unused. -/
def nameSearch (target : Nat) (used : List (List Nat)) :
    List (List Nat × List Nat) → Option (List Nat)
  | [] => none
  | (first, last) :: rest =>
    let candidate := first ++ 32 :: last
    if candidate.length = target ∧ candidate ∉ used then some candidate
    else if candidate.length < target then
      let padded := candidate ++ List.replicate (target - candidate.length) 32
      if padded ∉ used then some padded else nameSearch target used rest
    else nameSearch target used rest

/-- The cross product `FIRST_NAMES x LAST_NAMES` in loop order. -/
def namePairs : List (List Nat × List Nat) :=
  (FIRST_NAMES.map (fun f => LAST_NAMES.map (fun l => (f, l)))).flatten

/-- Embedding of `generate_replacement_name`.  The used-name set is modelled
    as a list consulted through membership; `set.add` is modelled by consing
    (membership-equivalent).  Returns the replacement, the updated used-name
    set and the updated `counter['student']`.  The counter is read and
    incremented only on the fallback path, and the last-resort `'X' * n`
    result is returned without being registered, as in the source. -/
def generate_replacement_name (original : List Nat) (used_names : List (List Nat))
    (counter : Nat) : List Nat × List (List Nat) × Nat :=
  let target_len := original.length
  match nameSearch target_len used_names namePairs with
  | some candidate => (candidate, candidate :: used_names, counter)
  | none =>
    let idx := counter
    let base := strL "Student" ++ fmt0pad 3 idx
    if base.length ≤ target_len then
      let result := base ++ List.replicate (target_len - base.length) 32
      (result, result :: used_names, idx + 1)
    else (List.replicate target_len 88, used_names, idx + 1)

/-- The `for fixture in TEACHER_FIXTURES:` search of `generate_teacher_name`:
    an exact-length fixture, a shorter fixture padded with trailing spaces,
    or a longer fixture truncated, each accepted when `"Title Fixture"` is
    unused. -/
def teacherSearch (title : List Nat) (surname_len : Nat) (used : List (List Nat)) :
    List (List Nat) → Option (List Nat)
  | [] => none
  | fixture :: rest =>
    if fixture.length = surname_len then
      if (title ++ 32 :: fixture) ∉ used then some (title ++ 32 :: fixture)
      else teacherSearch title surname_len used rest
    else if fixture.length < surname_len then
      let padded := fixture ++ List.replicate (surname_len - fixture.length) 32
      if (title ++ 32 :: padded) ∉ used then some (title ++ 32 :: padded)
      else teacherSearch title surname_len used rest
    else
      let truncated := fixture.take surname_len
      if (title ++ 32 :: truncated) ∉ used then some (title ++ 32 :: truncated)
      else teacherSearch title surname_len used rest

/-- Embedding of `generate_teacher_name`: the target length is the length of
    `"Title Surname"`, the fixture field must fill
    `target_len - len(title) - 1` characters; on vocabulary exhaustion a
    `TeacherNN` token is padded or truncated to that width and always
    accepted.  Returns the replacement, the updated used-name set and the
    updated `counter['teacher']`. -/
def generate_teacher_name (title surname : List Nat) (used_names : List (List Nat))
    (counter : Nat) : List Nat × List (List Nat) × Nat :=
  let original := title ++ 32 :: surname
  let target_len := original.length
  let surname_len := target_len - title.length - 1
  match teacherSearch title surname_len used_names TEACHER_FIXTURES with
  | some candidate => (candidate, candidate :: used_names, counter)
  | none =>
    let idx := counter
    let fixture0 := strL "Teacher" ++ fmt0pad 2 idx
    let fixture :=
      if fixture0.length ≤ surname_len then
        fixture0 ++ List.replicate (surname_len - fixture0.length) 32
      else fixture0.take surname_len
    let result := title ++ 32 :: fixture
    (result, result :: used_names, idx + 1)

-- The token detector (`detect_names_in_text`)

/-- Regex `\b` between the previous character (if any) and a word character
    about to be matched: it holds exactly when there is no previous word
    character. -/
def boundaryBefore : Option Nat → Bool
  | none => true
  | some p => !isWordChar p

/-- Regex `\b` after a word character, before the remaining text: it holds
    exactly when the text is exhausted or continues with a non-word
    character. -/
def boundaryAfter : List Nat → Bool
  | [] => true
  | c :: _ => !isWordChar c

/-- Parser for the group `([A-Z][a-z]\x7b3,\x7d)`: a capital, then the maximal
    run of at least three lowercase letters (a shorter run cannot be saved by
    backtracking, because every continuation of the patterns using this group
    requires a non-lowercase character next).  Returns the group and the rest. -/
def capWord : List Nat → Option (List Nat × List Nat)
  | [] => none
  | u :: s1 =>
    if isUpper u then
      if 3 ≤ (s1.takeWhile (fun c => isLower c)).length then
        some (u :: s1.takeWhile (fun c => isLower c), s1.dropWhile (fun c => isLower c))
      else none
    else none

/-- Parser for `\s+`: the maximal nonempty whitespace run (backtracking never
    shortens it, since what follows in the patterns is never whitespace).
    Returns its length and the rest. -/
def spaces1 (s : List Nat) : Option (Nat × List Nat) :=
  if (s.takeWhile (fun c => isSpace c)).isEmpty then none
  else some ((s.takeWhile (fun c => isSpace c)).length, s.dropWhile (fun c => isSpace c))

/-- A match of the teacher pattern
    `\b(Mr|Ms|Mrs|Miss)\s+([A-Z])\s+([A-Z][a-z]\x7b3,\x7d)\b`. -/
structure TMatch where
  title : List Nat
  initial : Nat
  surname : List Nat
  mlen : Nat

/-- Parser for `\s+([A-Z])\s+([A-Z][a-z]\x7b3,\x7d)\b`, the teacher pattern after
    its title alternative: returns the initial, the surname group and the
    number of characters consumed. -/
def tryTitleRest (s : List Nat) : Option (Nat × List Nat × Nat) :=
  match spaces1 s with
  | none => none
  | some (n1, r1) =>
    match r1 with
    | [] => none
    | i :: r2 =>
      if isUpper i then
        match spaces1 r2 with
        | none => none
        | some (n2, r3) =>
          match capWord r3 with
          | none => none
          | some (w, r4) =>
            if boundaryAfter r4 then some (i, w, n1 + 1 + n2 + w.length) else none
      else none

/-- The alternation `(Mr|Ms|Mrs|Miss)` with the leftmost-alternative
    backtracking of Python `re`: the first title in list order that is a
    literal prefix and whose continuation also matches. -/
def tryTitles (s : List Nat) : List (List Nat) → Option TMatch
  | [] => none
  | t :: ts =>
    if t.isPrefixOf s then
      match tryTitleRest (s.drop t.length) with
      | some (i, w, k) => some ⟨t, i, w, t.length + k⟩
      | none => tryTitles s ts
    else tryTitles s ts

/-- The title alternatives in the pattern's order. -/
def TITLES : List (List Nat) := [strL "Mr", strL "Ms", strL "Mrs", strL "Miss"]

/-- Attempt of the full teacher pattern at the current position (`prev` is
    the character before that position, for `\b`). -/
def tryTeacher (prev : Option Nat) (s : List Nat) : Option TMatch :=
  if boundaryBefore prev then tryTitles s TITLES else none

/-- The `re.finditer` scan for the teacher pattern: try each position from
    the left; on a match, continue after it (matches never overlap). -/
def scanTeacher : Nat → Option Nat → List Nat → List TMatch
  | 0, _, _ => []
  | _ + 1, _, [] => []
  | fuel + 1, prev, c :: cs =>
    match tryTeacher prev (c :: cs) with
    | some m =>
      m :: scanTeacher fuel (some ((List.take m.mlen (c :: cs)).getLastD 0))
        (List.drop (m.mlen - 1) cs)
    | none => scanTeacher fuel (some c) cs

/-- A match of the student-in-context pattern
    `([A-Z][a-z]\x7b3,\x7d)\s+([A-Z][a-z]\x7b3,\x7d)\s+\(?(\d\x7b1,2\x7d[A-Z]\x7b1,3\x7d)\)?`. -/
structure SMatch where
  first : List Nat
  last : List Nat
  form : List Nat
  mlen : Nat

/-- Attempt of the student pattern at the current position.  `\d\x7b1,2\x7d` must
    take the whole maximal digit run (a third digit can never be matched by
    `[A-Z]`, and backtracking onto a digit fails too), and `[A-Z]\x7b1,3\x7d`
    greedily takes up to three capitals with nothing after it to fail. -/
def tryStudent (s : List Nat) : Option SMatch :=
  match capWord s with
  | none => none
  | some (w1, r1) =>
    match spaces1 r1 with
    | none => none
    | some (n1, r2) =>
      match capWord r2 with
      | none => none
      | some (w2, r3) =>
        match spaces1 r3 with
        | none => none
        | some (n2, r4) =>
          let op : Nat × List Nat := match r4 with | 40 :: t => (1, t) | _ => (0, r4)
          let ds := op.2.takeWhile (fun c => isDigit c)
          if 1 ≤ ds.length ∧ ds.length ≤ 2 then
            let r6 := op.2.drop ds.length
            let us := r6.takeWhile (fun c => isUpper c)
            if 1 ≤ us.length then
              let t3 := us.take 3
              let cp : Nat := match r6.drop t3.length with | 41 :: _ => 1 | _ => 0
              some ⟨w1, w2, ds ++ t3,
                w1.length + n1 + w2.length + n2 + op.1 + ds.length + t3.length + cp⟩
            else none
          else none

/-- The `re.finditer` scan for the student pattern (no `\b`, so no previous
    character is needed). -/
def scanStudent : Nat → List Nat → List SMatch
  | 0, _ => []
  | _ + 1, [] => []
  | fuel + 1, c :: cs =>
    match tryStudent (c :: cs) with
    | some m => m :: scanStudent fuel (List.drop (m.mlen - 1) cs)
    | none => scanStudent fuel cs

/-- A match of the standalone form-code pattern `\b(\d\x7b1,2\x7d[A-Z]\x7b2,3\x7d)\b`. -/
structure FMatch where
  code : List Nat
  mlen : Nat

/-- Attempt of the form-code pattern at the current position: the maximal
    digit run (1 or 2 digits) then the maximal capital run (2 or 3 capitals)
    followed by a boundary; a longer capital run cannot match, because
    backtracking still leaves a capital right after the match. -/
def tryForm (prev : Option Nat) (s : List Nat) : Option FMatch :=
  if boundaryBefore prev then
    let ds := s.takeWhile (fun c => isDigit c)
    if 1 ≤ ds.length ∧ ds.length ≤ 2 then
      let r1 := s.drop ds.length
      let us := r1.takeWhile (fun c => isUpper c)
      if 2 ≤ us.length ∧ us.length ≤ 3 then
        if boundaryAfter (r1.drop us.length) then
          some ⟨ds ++ us, ds.length + us.length⟩
        else none
      else none
    else none
  else none

/-- The `re.finditer` scan for the form-code pattern. -/
def scanForm : Nat → Option Nat → List Nat → List FMatch
  | 0, _, _ => []
  | _ + 1, _, [] => []
  | fuel + 1, prev, c :: cs =>
    match tryForm prev (c :: cs) with
    | some m =>
      m :: scanForm fuel (some ((List.take m.mlen (c :: cs)).getLastD 0))
        (List.drop (m.mlen - 1) cs)
    | none => scanForm fuel (some c) cs

-- Assembling the detector

/-- Python dict insertion: overwrite in place when the key exists (keeping
    its position), else append. -/
def insertD (m : List (List Nat × List Nat)) (k v : List Nat) :
    List (List Nat × List Nat) :=
  if m.any (fun p => decide (p.1 = k)) then
    m.map (fun p => if p.1 = k then (k, v) else p)
  else m ++ [(k, v)]

/-- The mutable state of one `detect_names_in_text` run: the replacement
    mapping, the used-name set, and the two `defaultdict(int)` counters. -/
structure DState where
  repl : List (List Nat × List Nat)
  used : List (List Nat)
  cntStudent : Nat
  cntTeacher : Nat

/-- The surname stoplist `['week', 'page', 'form', 'room', 'lesson']`. -/
def STOP_WORDS : List (List Nat) :=
  [strL "week", strL "page", strL "form", strL "room", strL "lesson"]

/-- The teacher-loop body of `detect_names_in_text`: skip stoplisted
    surnames; otherwise generate `generate_teacher_name(title, "I Surname")`,
    split the result on its first whitespace run, and when that yields two
    parts map `"Title I Surname"` to `"Title I <second part>"`. -/
def applyTeacherMatch (st : DState) (m : TMatch) : DState :=
  let original := m.title ++ 32 :: m.initial :: 32 :: m.surname
  if lowerStr m.surname ∈ STOP_WORDS then st
  else
    let g := generate_teacher_name m.title (m.initial :: 32 :: m.surname)
      st.used st.cntTeacher
    let st1 : DState := ⟨st.repl, g.2.1, st.cntStudent, g.2.2⟩
    match splitNone1 g.1 with
    | [_, b] =>
      ⟨insertD st1.repl original (m.title ++ 32 :: m.initial :: 32 :: b),
        st1.used, st1.cntStudent, st1.cntTeacher⟩
    | _ => st1

/-- The student-loop body: map the full name to a generated generic
    replacement, and the captured form code to digits followed by `'X'`s. -/
def applyStudentMatch (st : DState) (m : SMatch) : DState :=
  let full_name := m.first ++ 32 :: m.last
  let g := generate_replacement_name full_name st.used st.cntStudent
  let digit_part := m.form.filter (fun c => isDigit c)
  let letter_count := m.form.length - digit_part.length
  ⟨insertD (insertD st.repl full_name g.1) m.form
      (digit_part ++ List.replicate letter_count 88),
    g.2.1, g.2.2, st.cntTeacher⟩

/-- The standalone form-code loop body: map the code to its digits followed
    by `'X'`s. -/
def applyFormMatch (st : DState) (m : FMatch) : DState :=
  let digit_part := m.code.filter (fun c => isDigit c)
  let letter_count := m.code.length - digit_part.length
  ⟨insertD st.repl m.code (digit_part ++ List.replicate letter_count 88),
    st.used, st.cntStudent, st.cntTeacher⟩

/-- Embedding of `detect_names_in_text`: the three pattern passes in source
    order over the same corpus, sharing one used-name set and counter
    state, interleaving detection and generation; returns the replacement
    mapping. -/
def detect_names_in_text (text : List Nat) : List (List Nat × List Nat) :=
  let st0 : DState := ⟨[], [], 0, 0⟩
  let st1 := (scanTeacher text.length none text).foldl applyTeacherMatch st0
  let st2 := (scanStudent text.length text).foldl applyStudentMatch st1
  let st3 := (scanForm text.length none text).foldl applyFormMatch st2
  st3.repl

-- Text view extraction (`extract_text_from_pdf`)

/-- Regex class `[0-9A-Fa-f]`. -/
def isHexDigit (c : Nat) : Bool :=
  isDigit c || decide ((65 ≤ c ∧ c ≤ 70) ∨ (97 ≤ c ∧ c ≤ 102))

/-- The `re.finditer` scan for the hex-literal pattern `<([0-9A-Fa-f]+)>`:
    at a `<`, the greedy hex-digit run must be nonempty and directly
    followed by `>` (backtracking inside the run can never produce the
    closing bracket); otherwise scanning resumes after the `<`. -/
def scanHex : Nat → List Nat → List (List Nat)
  | 0, _ => []
  | _ + 1, [] => []
  | fuel + 1, c :: cs =>
    if c = 60 then
      match cs.dropWhile (fun x => isHexDigit x) with
      | 62 :: rest =>
        if (cs.takeWhile (fun x => isHexDigit x)).isEmpty then scanHex fuel cs
        else cs.takeWhile (fun x => isHexDigit x) :: scanHex fuel rest
      | _ => scanHex fuel cs
    else scanHex fuel cs

/-- The `'\n'.join` of the latin-1-decoded per-stream texts (the decode is
    the identity on code points and, with `errors='ignore'`, never fails). -/
def combinedPlain (pages : List (List Nat)) : List Nat :=
  List.intercalate [10] pages

/-- Embedding of `extract_text_from_pdf`, from the ordered content-stream
    byte sequences: the combined plain text, its full Bromcom decode, and
    the hex-literal runs each hex-decoded then Bromcom-decoded, joined by
    newlines. -/
def extract_text_from_pdf (pages : List (List Nat)) : List Nat :=
  let combined := List.intercalate [10] pages
  let decoded_raw := decode_bromcom combined
  let decoded_texts :=
    (scanHex combined.length combined).map (fun h => decode_bromcom (hexDecodeBody h))
  List.intercalate [10] ([combined, decoded_raw] ++ decoded_texts)

lemma intercalate_newline (a : List Nat) (l : List (List Nat)) :
    List.intercalate [10] (a :: l) = a ++ (l.map (fun x => 10 :: x)).flatten := by
  induction l generalizing a with
  | nil => simp [List.intercalate]
  | cons b l ih =>
    have hb := ih b
    simp only [List.intercalate, List.intersperse_cons_cons, List.flatten_cons] at hb ⊢
    rw [hb]
    simp

/-- C8: the extraction step returns the newline-join of the combined plain
    text of all pages, the Bromcom (cipher) decode of that entire combined
    string, and, for each hex-literal run `<[hex digits]>` in the combined
    string, its hex-decode followed by the cipher decode - in that order. -/
theorem C8_extraction_order (pages : List (List Nat)) :
    extract_text_from_pdf pages =
      combinedPlain pages ++ 10 :: decode_bromcom (combinedPlain pages) ++
        ((scanHex (combinedPlain pages).length (combinedPlain pages)).map
          (fun h => 10 :: decode_bromcom (hexDecodeBody h))).flatten := by
  simp only [extract_text_from_pdf, combinedPlain, List.cons_append, List.nil_append]
  rw [intercalate_newline]
  simp only [List.map_cons, List.flatten_cons, List.map_map, List.append_assoc,
    List.cons_append, Function.comp_def]

-- Concrete detector runs

/-- C1 (code bug): on the corpus `"Mr J Smith"` the detector produces the
    mapping entry `"Mr J Smith" -> "Mr J Alpha  "`, whose replacement is two
    characters longer than the original: the teacher branch re-inserts the
    initial after `generate_teacher_name` already sized its result to the
    full `"Title I Surname"` width. -/
theorem C1_teacher_length_violation :
    detect_names_in_text (strL "Mr J Smith") =
      [(strL "Mr J Smith", strL "Mr J Alpha  ")] ∧
    (strL "Mr J Alpha  ").length = (strL "Mr J Smith").length + 2 := by
  constructor
  · decide
  · decide

/-- C2 counterexample: on the corpus `"10AB 10CD"` the two distinct form
    codes both map to the replacement `"10XX"`, so two distinct originals
    share one replacement string within a single run. -/
theorem C2_counterexample :
    detect_names_in_text (strL "10AB 10CD") =
      [(strL "10AB", strL "10XX"), (strL "10CD", strL "10XX")] ∧
    strL "10AB" ≠ strL "10CD" := by
  constructor
  · decide
  · decide

/-- The counter-fallback result shape of `generate_replacement_name`
    (`Student` plus a zero-padded 3-digit counter, padded with trailing
    spaces - or the last-resort all-`'X'` string). -/
def studentFallback (target k : Nat) : List Nat :=
  let base := strL "Student" ++ fmt0pad 3 k
  if base.length ≤ target then base ++ List.replicate (target - base.length) 32
  else List.replicate target 88

/-- The counter-fallback fixture field of `generate_teacher_name`
    (`Teacher` plus a zero-padded 2-digit counter, padded or truncated to
    the required width). -/
def teacherFallbackField (width k : Nat) : List Nat :=
  let fixture0 := strL "Teacher" ++ fmt0pad 2 k
  if fixture0.length ≤ width then
    fixture0 ++ List.replicate (width - fixture0.length) 32
  else fixture0.take width

lemma nameSearch_not_mem (ps : List (List Nat × List Nat)) (target : Nat)
    (used : List (List Nat)) (r : List Nat) (h : nameSearch target used ps = some r) :
    r ∉ used := by
  induction ps with
  | nil => simp [nameSearch] at h
  | cons p rest ih =>
    rcases p with ⟨f, l⟩
    simp only [nameSearch] at h
    split at h
    · cases h
      exact (by assumption : _ ∧ _).2
    · split at h
      · split at h
        · cases h
          assumption
        · exact ih h
      · exact ih h

lemma teacherSearch_not_mem (fs : List (List Nat)) (title : List Nat)
    (surname_len : Nat) (used : List (List Nat)) (r : List Nat)
    (h : teacherSearch title surname_len used fs = some r) : r ∉ used := by
  induction fs with
  | nil => simp [teacherSearch] at h
  | cons fx rest ih =>
    simp only [teacherSearch] at h
    split at h
    · split at h
      · cases h
        assumption
      · exact ih h
    · split at h
      · split at h
        · cases h
          assumption
        · exact ih h
      · split at h
        · cases h
          assumption
        · exact ih h

/-- C2 amended: a replacement produced through either generator's
    vocabulary search is absent from the used-name registry it was given
    (hence distinct from every replacement registered earlier in the run);
    only the counter-fallback and last-resort outputs - and the
    deterministic form-code replacements - can coincide with an earlier
    replacement. -/
theorem C2_vocabulary_freshness (original title surname : List Nat)
    (used : List (List Nat)) (cS cT : Nat) :
    ((generate_replacement_name original used cS).1 ∉ used ∨
      ∃ k, (generate_replacement_name original used cS).1 =
        studentFallback original.length k) ∧
    ((generate_teacher_name title surname used cT).1 ∉ used ∨
      ∃ k, (generate_teacher_name title surname used cT).1 =
        title ++ 32 :: teacherFallbackField
          ((title ++ 32 :: surname).length - title.length - 1) k) := by
  constructor
  · cases hs : nameSearch original.length used namePairs with
    | some c =>
      left
      have h1 : (generate_replacement_name original used cS).1 = c := by
        simp [generate_replacement_name, hs]
      rw [h1]
      exact nameSearch_not_mem namePairs original.length used c hs
    | none =>
      right
      refine ⟨cS, ?_⟩
      simp [generate_replacement_name, hs, studentFallback]
      split <;> rfl
  · cases hs : teacherSearch title surname.length used TEACHER_FIXTURES with
    | some c =>
      left
      have h1 : (generate_teacher_name title surname used cT).1 = c := by
        simp [generate_teacher_name, hs]
      rw [h1]
      exact teacherSearch_not_mem TEACHER_FIXTURES title _ used c hs
    | none =>
      right
      refine ⟨cT, ?_⟩
      simp [generate_teacher_name, hs, teacherFallbackField]

/-- C4 counterexample: on the scenario corpus `"Mr J Smith"` the produced
    entry has a 10-character key (not 11) and a 12-character value (not
    11). -/
theorem C4_counterexample :
    detect_names_in_text (strL "Mr J Smith") =
      [(strL "Mr J Smith", strL "Mr J Alpha  ")] ∧
    (strL "Mr J Smith").length ≠ 11 ∧ (strL "Mr J Alpha  ").length ≠ 11 := by
  refine ⟨by decide, by decide, by decide⟩

/-- C4 amended: the corpus `"Mr J Smith"` yields one mapping entry whose key
    is `"Mr J Smith"` (10 characters) and whose value is the 12-character
    string `"Mr J "` followed by a 7-character fixture field drawn from the
    teacher fixture vocabulary and padded with trailing spaces. -/
theorem C4_teacher_scenario :
    detect_names_in_text (strL "Mr J Smith") =
      [(strL "Mr J Smith", strL "Mr J Alpha  ")] ∧
    (strL "Mr J Smith").length = 10 ∧
    strL "Mr J Alpha  " = strL "Mr J " ++ (strL "Alpha" ++ List.replicate 2 32) ∧
    (strL "Mr J Alpha  ").length = 12 ∧
    strL "Alpha" ∈ TEACHER_FIXTURES := by
  refine ⟨by decide, by decide, by decide, by decide, by decide⟩

/-- C7: the corpus `"Amelia Slater (10AB)"` yields exactly two mapping
    entries: `"Amelia Slater"` (13 characters) mapped to the 13-character
    generic replacement produced by `generate_replacement_name`, and
    `"10AB"` mapped to `"10XX"`. -/
theorem C7_student_scenario :
    detect_names_in_text (strL "Amelia Slater (10AB)") =
      [(strL "Amelia Slater", strL "Test Data    "), (strL "10AB", strL "10XX")] ∧
    (strL "Amelia Slater").length = 13 ∧
    (strL "Test Data    ").length = 13 ∧
    (generate_replacement_name (strL "Amelia Slater") [] 0).1 = strL "Test Data    " := by
  refine ⟨by decide, by decide, by decide, by decide⟩

-- C9: the stoplist prevents any "Mr A Week" mapping key

/-- No entry of the mapping has key `k`. -/
def noKey (k : List Nat) (m : List (List Nat × List Nat)) : Prop :=
  ∀ p ∈ m, p.1 ≠ k

lemma insertD_noKey {k key v : List Nat} {m : List (List Nat × List Nat)}
    (h : noKey k m) (hne : key ≠ k) : noKey k (insertD m key v) := by
  intro p hp
  unfold insertD at hp
  split at hp
  · rcases List.mem_map.mp hp with ⟨q, hq, rfl⟩
    split
    · exact hne
    · exact h q hq
  · rcases List.mem_append.mp hp with h1 | h2
    · exact h p h1
    · simp only [List.mem_singleton] at h2
      rw [h2]
      exact hne

lemma no_space_ne (k : List Nat) (hk : 32 ∉ k) :
    k ≠ [77, 114, 32, 65, 32, 87, 101, 101, 107] := by
  intro he
  rw [he] at hk
  exact hk (by decide)

lemma one_space_ne (xs ys : List Nat) (hx : 32 ∉ xs) (hy : 32 ∉ ys) :
    xs ++ 32 :: ys ≠ [77, 114, 32, 65, 32, 87, 101, 101, 107] := by
  intro he
  have hc := congrArg (List.count 32) he
  rw [List.count_append, List.count_cons] at hc
  rw [List.count_eq_zero.mpr hx, List.count_eq_zero.mpr hy] at hc
  simp at hc

lemma capWord_no_space {s w r : List Nat} (h : capWord s = some (w, r)) : 32 ∉ w := by
  cases s with
  | nil => simp [capWord] at h
  | cons u s1 =>
    simp only [capWord] at h
    split at h
    · split at h
      · simp only [Option.some.injEq, Prod.mk.injEq] at h
        rw [← h.1]
        intro hmem
        rcases List.mem_cons.mp hmem with h32 | h32
        · have hu : isUpper u = true := by assumption
          rw [← h32] at hu
          exact absurd hu (by decide)
        · exact absurd (List.mem_takeWhile_imp h32) (by decide)
      · exact absurd h (by simp)
    · exact absurd h (by simp)

lemma tryStudent_no_space {s : List Nat} {m : SMatch} (h : tryStudent s = some m) :
    32 ∉ m.first ∧ 32 ∉ m.last ∧ 32 ∉ m.form := by
  simp only [tryStudent] at h
  split at h
  · exact absurd h (by simp)
  next w1 r1 hcap1 =>
    split at h
    · exact absurd h (by simp)
    next n1 r2 hsp1 =>
      split at h
      · exact absurd h (by simp)
      next w2 r3 hcap2 =>
        split at h
        · exact absurd h (by simp)
        next n2 r4 hsp2 =>
          split at h
          next hds =>
            split at h
            next hus =>
              simp only [Option.some.injEq] at h
              rw [← h]
              refine ⟨capWord_no_space hcap1, capWord_no_space hcap2, ?_⟩
              intro hmem
              rcases List.mem_append.mp hmem with h32 | h32
              · exact absurd (List.mem_takeWhile_imp h32) (by decide)
              · have h32' := List.mem_of_mem_take h32
                exact absurd (List.mem_takeWhile_imp h32') (by decide)
            next => exact absurd h (by simp)
          next => exact absurd h (by simp)

lemma tryForm_no_space {prev : Option Nat} {s : List Nat} {m : FMatch}
    (h : tryForm prev s = some m) : 32 ∉ m.code := by
  simp only [tryForm] at h
  split at h
  · split at h
    next =>
      split at h
      next =>
        split at h
        next =>
          simp only [Option.some.injEq] at h
          rw [← h]
          intro hmem
          rcases List.mem_append.mp hmem with h32 | h32
          · exact absurd (List.mem_takeWhile_imp h32) (by decide)
          · exact absurd (List.mem_takeWhile_imp h32) (by decide)
        next => exact absurd h (by simp)
      next => exact absurd h (by simp)
    next => exact absurd h (by simp)
  · exact absurd h (by simp)

lemma tryTitles_title {s : List Nat} :
    ∀ {ts : List (List Nat)} {m : TMatch}, tryTitles s ts = some m → m.title ∈ ts := by
  intro ts
  induction ts with
  | nil => intro m h; simp [tryTitles] at h
  | cons t ts ih =>
    intro m h
    simp only [tryTitles] at h
    split at h
    · split at h
      case h_1 r hrest =>
        simp only [Option.some.injEq] at h
        rw [← h]
        exact List.mem_cons_self t ts
      case h_2 => exact List.mem_cons_of_mem t (ih h)
    · exact List.mem_cons_of_mem t (ih h)

lemma scanTeacher_title :
    ∀ (fuel : Nat) (prev : Option Nat) (text : List Nat) (m : TMatch),
      m ∈ scanTeacher fuel prev text → m.title ∈ TITLES := by
  intro fuel
  induction fuel with
  | zero => intro prev text m h; simp [scanTeacher] at h
  | succ f ih =>
    intro prev text m h
    cases text with
    | nil => simp [scanTeacher] at h
    | cons c cs =>
      simp only [scanTeacher] at h
      split at h
      case h_1 m0 heq =>
        rcases List.mem_cons.mp h with h1 | h2
        · unfold tryTeacher at heq
          split at heq
          · rw [h1]
            exact tryTitles_title heq
          · exact absurd heq (by simp)
        · exact ih _ _ _ h2
      case h_2 => exact ih _ _ _ h

lemma scanStudent_no_space :
    ∀ (fuel : Nat) (text : List Nat) (m : SMatch),
      m ∈ scanStudent fuel text → 32 ∉ m.first ∧ 32 ∉ m.last ∧ 32 ∉ m.form := by
  intro fuel
  induction fuel with
  | zero => intro text m h; simp [scanStudent] at h
  | succ f ih =>
    intro text m h
    cases text with
    | nil => simp [scanStudent] at h
    | cons c cs =>
      simp only [scanStudent] at h
      split at h
      case h_1 m0 heq =>
        rcases List.mem_cons.mp h with h1 | h2
        · rw [h1]
          exact tryStudent_no_space heq
        · exact ih _ _ h2
      case h_2 => exact ih _ _ h

lemma scanForm_no_space :
    ∀ (fuel : Nat) (prev : Option Nat) (text : List Nat) (m : FMatch),
      m ∈ scanForm fuel prev text → 32 ∉ m.code := by
  intro fuel
  induction fuel with
  | zero => intro prev text m h; simp [scanForm] at h
  | succ f ih =>
    intro prev text m h
    cases text with
    | nil => simp [scanForm] at h
    | cons c cs =>
      simp only [scanForm] at h
      split at h
      case h_1 m0 heq =>
        rcases List.mem_cons.mp h with h1 | h2
        · rw [h1]
          exact tryForm_no_space heq
        · exact ih _ _ _ h2
      case h_2 => exact ih _ _ _ h

lemma applyTeacherMatch_noKey {st : DState} {m : TMatch} (ht : m.title ∈ TITLES)
    (h : noKey [77, 114, 32, 65, 32, 87, 101, 101, 107] st.repl) :
    noKey [77, 114, 32, 65, 32, 87, 101, 101, 107] (applyTeacherMatch st m).repl := by
  simp only [applyTeacherMatch]
  split
  · exact h
  next hstop =>
    split
    next a b heq =>
      apply insertD_noKey h
      intro he
      simp only [TITLES, List.mem_cons, List.not_mem_nil, or_false] at ht
      have e1 : strL "Mr" = [77, 114] := by decide
      have e2 : strL "Ms" = [77, 115] := by decide
      have e3 : strL "Mrs" = [77, 114, 115] := by decide
      have e4 : strL "Miss" = [77, 105, 115, 115] := by decide
      rcases ht with h1 | h1 | h1 | h1 <;> rw [h1] at he
      · rw [e1] at he
        simp only [List.cons_append, List.nil_append, List.cons.injEq] at he
        have hs : m.surname = [87, 101, 101, 107] := he.2.2.2.2.2
        rw [hs] at hstop
        exact hstop (by decide)
      · rw [e2] at he
        simp at he
      · rw [e3] at he
        simp at he
      · rw [e4] at he
        simp at he
    next => exact h

lemma applyStudentMatch_noKey {st : DState} {m : SMatch}
    (hf : 32 ∉ m.first) (hl : 32 ∉ m.last) (hfo : 32 ∉ m.form)
    (h : noKey [77, 114, 32, 65, 32, 87, 101, 101, 107] st.repl) :
    noKey [77, 114, 32, 65, 32, 87, 101, 101, 107] (applyStudentMatch st m).repl := by
  simp only [applyStudentMatch]
  exact insertD_noKey (insertD_noKey h (one_space_ne _ _ hf hl)) (no_space_ne _ hfo)

lemma applyFormMatch_noKey {st : DState} {m : FMatch} (hc : 32 ∉ m.code)
    (h : noKey [77, 114, 32, 65, 32, 87, 101, 101, 107] st.repl) :
    noKey [77, 114, 32, 65, 32, 87, 101, 101, 107] (applyFormMatch st m).repl := by
  simp only [applyFormMatch]
  exact insertD_noKey h (no_space_ne _ hc)

lemma foldl_teacher_noKey :
    ∀ (ms : List TMatch) (st : DState), (∀ m ∈ ms, m.title ∈ TITLES) →
      noKey [77, 114, 32, 65, 32, 87, 101, 101, 107] st.repl →
      noKey [77, 114, 32, 65, 32, 87, 101, 101, 107]
        (ms.foldl applyTeacherMatch st).repl := by
  intro ms
  induction ms with
  | nil => intro st _ h; exact h
  | cons m ms ih =>
    intro st hms h
    simp only [List.foldl_cons]
    exact ih _ (fun x hx => hms x (List.mem_cons_of_mem _ hx))
      (applyTeacherMatch_noKey (hms m (List.mem_cons_self _ _)) h)

lemma foldl_student_noKey :
    ∀ (ms : List SMatch) (st : DState),
      (∀ m ∈ ms, 32 ∉ m.first ∧ 32 ∉ m.last ∧ 32 ∉ m.form) →
      noKey [77, 114, 32, 65, 32, 87, 101, 101, 107] st.repl →
      noKey [77, 114, 32, 65, 32, 87, 101, 101, 107]
        (ms.foldl applyStudentMatch st).repl := by
  intro ms
  induction ms with
  | nil => intro st _ h; exact h
  | cons m ms ih =>
    intro st hms h
    simp only [List.foldl_cons]
    have hm := hms m (List.mem_cons_self _ _)
    exact ih _ (fun x hx => hms x (List.mem_cons_of_mem _ hx))
      (applyStudentMatch_noKey hm.1 hm.2.1 hm.2.2 h)

lemma foldl_form_noKey :
    ∀ (ms : List FMatch) (st : DState), (∀ m ∈ ms, 32 ∉ m.code) →
      noKey [77, 114, 32, 65, 32, 87, 101, 101, 107] st.repl →
      noKey [77, 114, 32, 65, 32, 87, 101, 101, 107]
        (ms.foldl applyFormMatch st).repl := by
  intro ms
  induction ms with
  | nil => intro st _ h; exact h
  | cons m ms ih =>
    intro st hms h
    simp only [List.foldl_cons]
    exact ih _ (fun x hx => hms x (List.mem_cons_of_mem _ hx))
      (applyFormMatch_noKey (hms m (List.mem_cons_self _ _)) h)

/-- C9: for every latin-1 detection corpus, no mapping entry with key
    `"Mr A Week"` is ever produced: a teacher match whose surname is
    stoplisted creates no entry, and the student and form-code entries can
    never have this key shape (their keys contain at most one space, or no
    space at all). -/
theorem C9_stoplist_no_mr_a_week (text : List Nat) (h : ∀ c ∈ text, c < 256) :
    ∀ p ∈ detect_names_in_text text, p.1 ≠ strL "Mr A Week" := by
  have e : strL "Mr A Week" = [77, 114, 32, 65, 32, 87, 101, 101, 107] := by decide
  rw [e]
  simp only [detect_names_in_text]
  apply foldl_form_noKey
  · intro m hm
    exact scanForm_no_space _ _ _ _ hm
  · apply foldl_student_noKey
    · intro m hm
      exact scanStudent_no_space _ _ _ hm
    · apply foldl_teacher_noKey
      · intro m hm
        exact scanTeacher_title _ _ _ _ hm
      · intro p hp
        exact absurd hp (List.not_mem_nil p)

/-- C9 witness: the theorem applied to the concrete corpus `"Mr A Week"`
    itself, on which the detector produces no mapping at all. -/
theorem C9_stoplist_no_mr_a_week_witness :
    (∀ c ∈ strL "Mr A Week", c < 256) ∧
      ∀ p ∈ detect_names_in_text (strL "Mr A Week"), p.1 ≠ strL "Mr A Week" :=
  ⟨by decide, C9_stoplist_no_mr_a_week (strL "Mr A Week") (by decide)⟩
